import Mathlib

/-!
Verification of the toolset connection pool and TTL cache of the
ai-travel-agent repository (`src/core/agents.py`).

The embedding models the two classes `ToolsetConnectionPool` and
`AgentFactory` as pure state-transformer functions:

* Python dicts become insertion-ordered association lists over `String`
  keys (`lookup` / `setKey` / `removeKey` mirror `d[k]`, `d[k] = v`,
  `d.pop(k, None)`).
* An `MCPToolset` instance becomes a `Toolset` record: an identity tag
  plus the attribute surface that `_close_toolset` probes at runtime
  (`hasClose`, `closeIsCoroutine`, `hasCleanup`) and whether an invoked
  disposal call raises (`raisesOnDispose`).
* The environment enters as explicit parameters: `createOk : Bool` is
  whether the `MCPToolset(...)` constructor succeeds, `loop : Bool` is
  whether `asyncio.get_running_loop()` finds a running event loop, and
  `now : Int` is `time.time()`.
* Each operation additionally returns an event trace recording lock
  acquisition/release, handle creation/reuse, disposal attempts and the
  log signals, so lock-scoping and warning claims are statable.
-/

namespace TravelAgent

/-- Log/trace events emitted by pool and cache operations. -/
inductive Event where
  | lockAcquire : Event
  | lockRelease : Event
  | created : Nat → Event
  | reused : Nat → Event
  | tempCreated : Nat → Event
  | dispose : Nat → Event
  | scheduledTask : Nat → Event
  | syncClose : Nat → Event
  | syncCleanup : Nat → Event
  | warnCapacity : String → Event
  | warnDisposal : Event
  | warnLeak : Event
  | errorLogged : Event
  | cacheHit : String → Event
  deriving DecidableEq, Repr

/-- The error raised when `MCPToolset(connection_params=params)` fails. -/
inductive CreationError where
  | creationFailed : CreationError
  deriving DecidableEq, Repr

/-- Decidable equality of acquire results, for concrete evaluation. -/
instance {α β : Type} [DecidableEq α] [DecidableEq β] : DecidableEq (Except α β)
  | Except.ok x, Except.ok y =>
      if h : x = y then isTrue (by rw [h]) else isFalse (fun hc => h (Except.ok.inj hc))
  | Except.error x, Except.error y =>
      if h : x = y then isTrue (by rw [h]) else isFalse (fun hc => h (Except.error.inj hc))
  | Except.ok _, Except.error _ => isFalse (fun hc => Except.noConfusion hc)
  | Except.error _, Except.ok _ => isFalse (fun hc => Except.noConfusion hc)

/-- Model of an `MCPToolset` handle: an identity tag, the endpoint it was
created for, the duck-typed disposal surface probed by `_close_toolset`,
and whether its disposal call raises when actually invoked. -/
structure Toolset where
  id : Nat
  url : String
  hasClose : Bool
  closeIsCoroutine : Bool
  hasCleanup : Bool
  raisesOnDispose : Bool
  deriving DecidableEq, Repr

/-- A freshly constructed `MCPToolset(connection_params=params)`: the real
class exposes an async `close` coroutine, and a successful construction
does not raise on later disposal by default. -/
def mkToolset (id : Nat) (url : String) : Toolset :=
  { id := id, url := url, hasClose := true, closeIsCoroutine := true,
    hasCleanup := false, raisesOnDispose := false }

/-- Dict read `d.get(k)` on an insertion-ordered association list. -/
def lookup {α : Type} : List (String × α) → String → Option α
  | [], _ => none
  | (k, v) :: rest, key => if k = key then some v else lookup rest key

/-- Dict write `d[k] = v`: update in place when the key exists, append
otherwise (Python dicts preserve insertion order). -/
def setKey {α : Type} : List (String × α) → String → α → List (String × α)
  | [], key, v => [(key, v)]
  | (k, w) :: rest, key, v =>
      if k = key then (k, v) :: rest else (k, w) :: setKey rest key v

/-- Dict removal `d.pop(k, None)` (dropping the key if present). -/
def removeKey {α : Type} : List (String × α) → String → List (String × α)
  | [], _ => []
  | (k, v) :: rest, key =>
      if k = key then rest else (k, v) :: removeKey rest key

/-- State of `ToolsetConnectionPool`: `max_connections`, the per-key free
lists `pools`, the per-key `connection_count`, and a supply of fresh
identity tags for newly constructed handles. -/
structure PoolState where
  maxConnections : Nat
  pools : List (String × List Toolset)
  connectionCount : List (String × Int)
  nextId : Nat
  deriving DecidableEq, Repr

/-- `ToolsetConnectionPool(max_connections)`: empty dicts. -/
def PoolState.init (maxConnections : Nat) : PoolState :=
  { maxConnections := maxConnections, pools := [], connectionCount := [], nextId := 0 }

/-- The tracked count for a key, `connection_count[service_name]`; the
code only indexes it for keys it has ensured are present. -/
def countD (s : PoolState) (name : String) : Int :=
  (lookup s.connectionCount name).getD 0

/-- The free list for a key, `pools[service_name]`. -/
def freeListD (s : PoolState) (name : String) : List Toolset :=
  (lookup s.pools name).getD []

/-- Lines 28-30 of `get_toolset`: lazily create the per-key entries
(`pools[name] = []`, `connection_count[name] = 0`) when the key is new. -/
def ensureKey (s : PoolState) (name : String) : PoolState :=
  if (lookup s.pools name).isSome then s
  else { s with pools := setKey s.pools name [],
                connectionCount := setKey s.connectionCount name 0 }

/-- `ToolsetConnectionPool.get_toolset(service_name, url)`.  Under the
lock: ensure the key, pop the most recent idle handle when the free list
is non-empty, otherwise construct a new handle — tracked (count
incremented) below the ceiling, or an untracked temporary with a
capacity warning at the ceiling.  A constructor failure (`createOk =
false`) is logged and re-raised with the count untouched. -/
def get_toolset (s : PoolState) (name url : String) (createOk : Bool) :
    Except CreationError Toolset × PoolState × List Event :=
  let s1 := ensureKey s name
  let pool := freeListD s1 name
  match pool.getLast? with
  | some ts =>
      (Except.ok ts,
       { s1 with pools := setKey s1.pools name pool.dropLast },
       [Event.lockAcquire, Event.reused ts.id, Event.lockRelease])
  | none =>
      if countD s1 name < (s1.maxConnections : Int) then
        if createOk then
          let ts := mkToolset s1.nextId url
          (Except.ok ts,
           { s1 with connectionCount := setKey s1.connectionCount name (countD s1 name + 1),
                     nextId := s1.nextId + 1 },
           [Event.lockAcquire, Event.created ts.id, Event.lockRelease])
        else
          (Except.error CreationError.creationFailed, s1,
           [Event.lockAcquire, Event.errorLogged, Event.lockRelease])
      else
        if createOk then
          let ts := mkToolset s1.nextId url
          (Except.ok ts,
           { s1 with nextId := s1.nextId + 1 },
           [Event.lockAcquire, Event.warnCapacity name, Event.tempCreated ts.id,
            Event.lockRelease])
        else
          (Except.error CreationError.creationFailed, s1,
           [Event.lockAcquire, Event.warnCapacity name, Event.lockRelease])

/-- The body of `_close_toolset` without its outer `try`/`except`: the
runtime probing of `close`/`cleanup` under the two event-loop regimes.
Returns the trace of what was attempted and whether the invoked disposal
call raised (a non-`RuntimeError` exception, to be caught by the outer
handler). -/
def close_toolset_raw (ts : Toolset) (loop : Bool) : List Event × Bool :=
  if loop then
    if ts.hasClose then
      if ts.closeIsCoroutine then ([Event.scheduledTask ts.id], false)
      else ([Event.syncClose ts.id], ts.raisesOnDispose)
    else if ts.hasCleanup then ([Event.syncCleanup ts.id], ts.raisesOnDispose)
    else ([], false)
  else
    if ts.hasCleanup then ([Event.syncCleanup ts.id], ts.raisesOnDispose)
    else if ts.hasClose && !ts.closeIsCoroutine then
      ([Event.syncClose ts.id], ts.raisesOnDispose)
    else if ts.hasClose then ([Event.warnLeak], false)
    else ([], false)

/-- `ToolsetConnectionPool._close_toolset(toolset)`: the disposal attempt
with its outer `except Exception` handler, which converts any raised
disposal error into a warning.  Total: it never propagates. -/
def close_toolset (ts : Toolset) (loop : Bool) : List Event :=
  let r := close_toolset_raw ts loop
  Event.dispose ts.id :: r.1 ++ (if r.2 then [Event.warnDisposal] else [])

/-- `ToolsetConnectionPool.return_toolset(service_name, toolset)`.  Under
the lock: unknown keys are ignored; below the idle bound
`max_connections // 2` the handle is appended to the free list; at or
above the bound it is closed and the count decremented. -/
def return_toolset (s : PoolState) (name : String) (ts : Toolset) (loop : Bool) :
    PoolState × List Event :=
  match lookup s.pools name with
  | none => (s, [Event.lockAcquire, Event.lockRelease])
  | some pool =>
      if pool.length < s.maxConnections / 2 then
        ({ s with pools := setKey s.pools name (pool ++ [ts]) },
         [Event.lockAcquire, Event.lockRelease])
      else
        ({ s with connectionCount := setKey s.connectionCount name (countD s name - 1) },
         [Event.lockAcquire] ++ close_toolset ts loop ++ [Event.lockRelease])

/-- `ToolsetConnectionPool.cleanup_all()`.  Under the lock: close every
idle handle of every key, reset that key's count to 0, and clear the
`pools` dict. -/
def cleanup_all (s : PoolState) (loop : Bool) : PoolState × List Event :=
  ({ s with pools := [],
            connectionCount := s.pools.foldl (fun m kv => setKey m kv.1 0) s.connectionCount },
   [Event.lockAcquire] ++
     (s.pools.map (fun kv => (kv.2.map (fun t => close_toolset t loop)).flatten)).flatten ++
     [Event.lockRelease])

/-- Class-level state of `AgentFactory`: the toolset cache, the creation
timestamps, and the TTL (`_cache_ttl = 300`). -/
structure CacheState where
  toolsetsCache : List (String × Toolset)
  creationTimestamps : List (String × Int)
  cacheTtl : Int
  deriving DecidableEq, Repr

/-- The initial `AgentFactory` class state: empty cache, TTL 300. -/
def CacheState.init : CacheState :=
  { toolsetsCache := [], creationTimestamps := [], cacheTtl := 300 }

/-- A concrete cache state for closed instances: one entry for the key
"w" created at time 0, default TTL 300. -/
def sampleCache : CacheState :=
  { toolsetsCache := [("w", mkToolset 3 "u")],
    creationTimestamps := [("w", 0)], cacheTtl := 300 }

/-- A concrete handle whose only disposal path is a `cleanup` that
always raises. -/
def badToolset : Toolset :=
  { id := 0, url := "u", hasClose := false, closeIsCoroutine := false,
    hasCleanup := true, raisesOnDispose := true }

/-- A concrete pool state for closed instances: key "w" tracked with one
live connection and an empty free list (the state after one acquire with
`max_connections = 2`, handle checked out). -/
def samplePool : PoolState :=
  { maxConnections := 2, pools := [("w", [])],
    connectionCount := [("w", 1)], nextId := 1 }

/-- A concrete cache state holding `badToolset` under the key "w". -/
def sampleCacheBad : CacheState :=
  { toolsetsCache := [("w", badToolset)],
    creationTimestamps := [("w", 0)], cacheTtl := 300 }

/-- Lines 142-151 of `_get_or_create_toolset`: acquire from the pool and,
on success, store the handle in the cache with the current timestamp; a
pool failure is logged and re-raised with the cache untouched. -/
def cacheStore (c : CacheState) (p : PoolState) (name url : String) (now : Int)
    (createOk : Bool) :
    Except CreationError Toolset × CacheState × PoolState × List Event :=
  let r := get_toolset p name url createOk
  match r.1 with
  | Except.ok ts =>
      (Except.ok ts,
       { c with toolsetsCache := setKey c.toolsetsCache name ts,
                creationTimestamps := setKey c.creationTimestamps name now },
       r.2.1, r.2.2)
  | Except.error e => (Except.error e, c, r.2.1, r.2.2 ++ [Event.errorLogged])

/-- `AgentFactory._get_or_create_toolset(service_name, url)`.  Under the
factory lock: a cache entry younger than the TTL is returned as-is (pure
cache hit, no pool interaction); an expired entry is popped from the
cache and its `cleanup` attempted best-effort (any error is caught and
logged); then, on a miss or after expiry, the handle comes from the
pool's `get_toolset` and is stored with the current timestamp. -/
def get_or_create_toolset (c : CacheState) (p : PoolState) (name url : String)
    (now : Int) (createOk : Bool) :
    Except CreationError Toolset × CacheState × PoolState × List Event :=
  match lookup c.toolsetsCache name with
  | some cached =>
      let creationTime := (lookup c.creationTimestamps name).getD 0
      if now - creationTime < c.cacheTtl then
        (Except.ok cached, c, p, [Event.cacheHit name])
      else
        let c1 := { c with toolsetsCache := removeKey c.toolsetsCache name }
        let evs0 :=
          if cached.hasCleanup then
            Event.dispose cached.id ::
              (if cached.raisesOnDispose then [Event.warnDisposal] else [])
          else []
        let r := cacheStore c1 p name url now createOk
        (r.1, r.2.1, r.2.2.1, evs0 ++ r.2.2.2)
  | none => cacheStore c p name url now createOk

/-- `AgentFactory.cleanup_toolsets()`.  Under the factory lock: route
every cached handle through the pool's `return_toolset`, clear both
cache dicts, then run the pool's `cleanup_all`. -/
def cleanup_toolsets (c : CacheState) (p : PoolState) (loop : Bool) :
    CacheState × PoolState × List Event :=
  let step := c.toolsetsCache.foldl
    (fun (acc : PoolState × List Event) kv =>
      let r := return_toolset acc.1 kv.1 kv.2 loop
      (r.1, acc.2 ++ r.2))
    (p, [])
  let c1 := { c with toolsetsCache := [], creationTimestamps := [] }
  let r2 := cleanup_all step.1 loop
  (c1, r2.1, step.2 ++ r2.2)

/-- A sequence of `get_toolset` calls on a single service key, one per
entry of `oks` (whether each attempted handle construction succeeds),
threading the pool state. -/
def acquireSeq (s : PoolState) (name url : String) (oks : List Bool) : PoolState :=
  oks.foldl (fun st ok => (get_toolset st name url ok).2.1) s

/-- A sequence of `return_toolset` calls on a single service key,
threading the pool state. -/
def releaseSeq (s : PoolState) (name : String) (hs : List Toolset) (loop : Bool) :
    PoolState :=
  hs.foldl (fun st h => (return_toolset st name h loop).1) s

/-- Every key of `connection_count` is either a live key of `pools` or
already has count 0.  This holds in every reachable pool state: the two
dicts gain keys together, and `cleanup_all` zeroes a key's count when it
drops the key from `pools`. -/
def countsCovered (s : PoolState) : Prop :=
  ∀ k v, lookup s.connectionCount k = some v → (lookup s.pools k).isSome ∨ v = 0

/-- Lock acquisition/release markers in an event trace. -/
def isLockEvent : Event → Bool
  | Event.lockAcquire => true
  | Event.lockRelease => true
  | _ => false

/-- Starting from lock depth `d`, every disposal attempt in the trace
happens while the lock is held (depth positive). -/
def allDisposesUnderLock : List Event → Nat → Bool
  | [], _ => true
  | Event.lockAcquire :: rest, d => allDisposesUnderLock rest (d + 1)
  | Event.lockRelease :: rest, d => allDisposesUnderLock rest (d - 1)
  | Event.dispose _ :: rest, d => decide (0 < d) && allDisposesUnderLock rest d
  | _ :: rest, d => allDisposesUnderLock rest d

/-- Starting from lock depth `d`, some disposal attempt in the trace
happens while the lock is held (depth positive). -/
def someDisposeUnderLock : List Event → Nat → Bool
  | [], _ => false
  | Event.lockAcquire :: rest, d => someDisposeUnderLock rest (d + 1)
  | Event.lockRelease :: rest, d => someDisposeUnderLock rest (d - 1)
  | Event.dispose _ :: rest, d => decide (0 < d) || someDisposeUnderLock rest d
  | _ :: rest, d => someDisposeUnderLock rest d

/-! ### Association-list lemmas -/

theorem lookup_setKey_self {α : Type} (l : List (String × α)) (k : String) (v : α) :
    lookup (setKey l k v) k = some v := by
  induction l with
  | nil => simp [setKey, lookup]
  | cons kv rest ih =>
      by_cases h : kv.1 = k
      · simp [setKey, lookup, h]
      · cases kv with
        | mk k0 v0 =>
            simp only at h
            simp [setKey, lookup, h, ih]

theorem lookup_setKey_ne {α : Type} (l : List (String × α)) (k k2 : String) (v : α)
    (h : k ≠ k2) : lookup (setKey l k v) k2 = lookup l k2 := by
  induction l with
  | nil => simp [setKey, lookup, h]
  | cons kv rest ih =>
      cases kv with
      | mk k0 v0 =>
          by_cases h0 : k0 = k
          · subst h0
            simp [setKey, lookup, h]
          · simp [setKey, lookup, h0, ih]

theorem lookup_setKey_isSome {α : Type} (l : List (String × α)) (k k2 : String) (v : α)
    (h : (lookup l k2).isSome) : (lookup (setKey l k v) k2).isSome := by
  by_cases hk : k = k2
  · subst hk
    simp [lookup_setKey_self]
  · rw [lookup_setKey_ne l k k2 v hk]
    exact h

theorem lookup_removeKey_ne {α : Type} (l : List (String × α)) (k k2 : String)
    (h : k ≠ k2) : lookup (removeKey l k) k2 = lookup l k2 := by
  induction l with
  | nil => simp [removeKey]
  | cons kv rest ih =>
      cases kv with
      | mk k0 v0 =>
          by_cases h0 : k0 = k
          · subst h0
            simp [removeKey, lookup, h]
          · simp [removeKey, lookup, h0, ih]

/-! ### Pool step lemmas -/

theorem ensureKey_max (s : PoolState) (name : String) :
    (ensureKey s name).maxConnections = s.maxConnections := by
  unfold ensureKey
  split <;> rfl

theorem countD_ensureKey (s : PoolState) (name : String) :
    countD (ensureKey s name) name =
      if (lookup s.pools name).isSome then countD s name else 0 := by
  unfold ensureKey countD
  split
  · simp_all
  · simp_all [lookup_setKey_self]

theorem countD_ensureKey_le (s : PoolState) (name : String)
    (h : countD s name ≤ (s.maxConnections : Int)) :
    countD (ensureKey s name) name ≤ (s.maxConnections : Int) := by
  rw [countD_ensureKey]
  split
  · exact h
  · positivity

theorem get_toolset_max (s : PoolState) (name url : String) (ok : Bool) :
    (get_toolset s name url ok).2.1.maxConnections = s.maxConnections := by
  rw [← ensureKey_max s name]
  simp only [get_toolset]
  split
  · rfl
  · split
    · split <;> rfl
    · split <;> rfl

theorem get_toolset_count_le (s : PoolState) (name url : String) (ok : Bool)
    (h : countD s name ≤ (s.maxConnections : Int)) :
    countD (get_toolset s name url ok).2.1 name ≤ (s.maxConnections : Int) := by
  have h1 : countD (ensureKey s name) name ≤ (s.maxConnections : Int) :=
    countD_ensureKey_le s name h
  have hmax : (ensureKey s name).maxConnections = s.maxConnections := ensureKey_max s name
  simp only [get_toolset]
  split
  · simpa [countD] using h1
  · split
    · split
      · simp only [countD, lookup_setKey_self, Option.getD_some] at *
        rw [hmax] at *
        omega
      · exact h1
    · split
      · simpa [countD] using h1
      · exact h1

theorem acquireSeq_cons (s : PoolState) (name url : String) (ok : Bool) (oks : List Bool) :
    acquireSeq s name url (ok :: oks) =
      acquireSeq (get_toolset s name url ok).2.1 name url oks := rfl

theorem ensureKey_eq_self (s : PoolState) (name : String)
    (h : (lookup s.pools name).isSome) : ensureKey s name = s := by
  unfold ensureKey
  simp [h]

theorem acquireSeq_count_le (s : PoolState) (name url : String) (oks : List Bool)
    (h : countD s name ≤ (s.maxConnections : Int)) :
    countD (acquireSeq s name url oks) name ≤ (s.maxConnections : Int) := by
  induction oks generalizing s with
  | nil => exact h
  | cons ok rest ih =>
      rw [acquireSeq_cons]
      have h2 := get_toolset_count_le s name url ok h
      have hm := get_toolset_max s name url ok
      have h3 := ih (get_toolset s name url ok).2.1 (by rw [hm]; exact h2)
      rw [hm] at h3
      exact h3

/-- C1: over any sequence of acquires on one key the tracked count stays
at or below `max_connections`; at the ceiling with an empty free list,
`get_toolset` returns a fresh untracked temporary (the counts dict is
untouched) and logs a capacity warning; concretely, with
`max_connections = 2`, three acquires yield counts 1, 2, 2 and the third
returns a temporary with a capacity warning. -/
theorem ceiling_invariant (s : PoolState) (name url : String) (oks : List Bool)
    (hle : countD s name ≤ (s.maxConnections : Int)) :
    countD (acquireSeq s name url oks) name ≤ (s.maxConnections : Int) ∧
    ((lookup s.pools name).isSome → freeListD s name = [] →
      (s.maxConnections : Int) ≤ countD s name →
        (get_toolset s name url true).1 = Except.ok (mkToolset s.nextId url) ∧
        (get_toolset s name url true).2.1.connectionCount = s.connectionCount ∧
        Event.warnCapacity name ∈ (get_toolset s name url true).2.2 ∧
        Event.tempCreated s.nextId ∈ (get_toolset s name url true).2.2) ∧
    (countD (acquireSeq (PoolState.init 2) "weather" url [true]) "weather" = 1 ∧
     countD (acquireSeq (PoolState.init 2) "weather" url [true, true]) "weather" = 2 ∧
     countD (acquireSeq (PoolState.init 2) "weather" url [true, true, true]) "weather" = 2 ∧
     (get_toolset (acquireSeq (PoolState.init 2) "weather" url [true, true]) "weather" url
         true).1 = Except.ok (mkToolset 2 url) ∧
     Event.warnCapacity "weather" ∈
       (get_toolset (acquireSeq (PoolState.init 2) "weather" url [true, true]) "weather" url
         true).2.2) := by
  refine ⟨acquireSeq_count_le s name url oks hle, ?_, ?_⟩
  · intro hsome hempty hge
    have he : ensureKey s name = s := ensureKey_eq_self s name hsome
    have hnlt : ¬ countD s name < (s.maxConnections : Int) := not_lt.mpr hge
    simp only [get_toolset, he, hempty, List.getLast?_nil, hnlt, if_false, if_true]
    simp [mkToolset]
  · exact ⟨rfl, rfl, rfl, rfl, by simp [acquireSeq, get_toolset, ensureKey, freeListD,
      countD, lookup, setKey, PoolState.init, mkToolset]⟩

/-- Closed instance of `ceiling_invariant` at `max_connections = 2` with
three successful acquires on the key "weather". -/
theorem ceiling_invariant_witness :
    countD (PoolState.init 2) "weather" ≤ (((PoolState.init 2).maxConnections : Nat) : Int) ∧
    countD (acquireSeq (PoolState.init 2) "weather" "u" [true, true, true]) "weather" ≤
      (((PoolState.init 2).maxConnections : Nat) : Int) :=
  ⟨by decide,
   (ceiling_invariant (PoolState.init 2) "weather" "u" [true, true, true] (by decide)).1⟩

theorem return_toolset_max (s : PoolState) (name : String) (ts : Toolset) (loop : Bool) :
    (return_toolset s name ts loop).1.maxConnections = s.maxConnections := by
  unfold return_toolset
  split
  · rfl
  · split <;> rfl

theorem releaseSeq_cons (s : PoolState) (name : String) (ts : Toolset) (hs : List Toolset)
    (loop : Bool) :
    releaseSeq s name (ts :: hs) loop =
      releaseSeq (return_toolset s name ts loop).1 name hs loop := rfl

theorem return_toolset_freelen_le (s : PoolState) (name : String) (ts : Toolset)
    (loop : Bool) (h : (freeListD s name).length ≤ s.maxConnections / 2) :
    (freeListD (return_toolset s name ts loop).1 name).length ≤ s.maxConnections / 2 := by
  unfold return_toolset
  split
  · exact h
  · rename_i pool hpool
    split
    · rename_i hlt
      have hf : freeListD s name = pool := by simp [freeListD, hpool]
      simp only [freeListD, lookup_setKey_self, Option.getD_some, List.length_append,
        List.length_cons, List.length_nil]
      rw [hf] at h
      omega
    · exact h

theorem releaseSeq_freelen_le (s : PoolState) (name : String) (hs : List Toolset)
    (loop : Bool) (h : (freeListD s name).length ≤ s.maxConnections / 2) :
    (freeListD (releaseSeq s name hs loop) name).length ≤ s.maxConnections / 2 := by
  induction hs generalizing s with
  | nil => exact h
  | cons ts rest ih =>
      rw [releaseSeq_cons]
      have h2 := return_toolset_freelen_le s name ts loop h
      have hm := return_toolset_max s name ts loop
      have h3 := ih (return_toolset s name ts loop).1 (by rw [hm]; exact h2)
      rw [hm] at h3
      exact h3

/-- C3: over any sequence of releases on one key the free list stays at
or below `max_connections // 2`; a release below that bound appends the
handle with the counts dict untouched and no disposal attempted; a
release at or above the bound leaves the free lists untouched, closes
the handle, and decrements the key's tracked count. -/
theorem idle_list_bound (s : PoolState) (name : String) (hs : List Toolset) (loop : Bool)
    (h : (freeListD s name).length ≤ s.maxConnections / 2) :
    (freeListD (releaseSeq s name hs loop) name).length ≤ s.maxConnections / 2 ∧
    (∀ ts pool, lookup s.pools name = some pool →
      (pool.length < s.maxConnections / 2 →
        (return_toolset s name ts loop).1.pools = setKey s.pools name (pool ++ [ts]) ∧
        (return_toolset s name ts loop).1.connectionCount = s.connectionCount ∧
        (∀ i, Event.dispose i ∉ (return_toolset s name ts loop).2)) ∧
      (s.maxConnections / 2 ≤ pool.length →
        (return_toolset s name ts loop).1.pools = s.pools ∧
        (return_toolset s name ts loop).1.connectionCount =
          setKey s.connectionCount name (countD s name - 1) ∧
        Event.dispose ts.id ∈ (return_toolset s name ts loop).2)) := by
  refine ⟨releaseSeq_freelen_le s name hs loop h, ?_⟩
  intro ts pool hpool
  constructor
  · intro hlt
    simp only [return_toolset, hpool, hlt, if_true]
    simp
  · intro hge
    have hnlt : ¬ pool.length < s.maxConnections / 2 := not_lt.mpr hge
    simp only [return_toolset, hpool, hnlt, if_false]
    simp [close_toolset]

/-- Closed instance of `idle_list_bound`: `max_connections = 2` (bound
1), key "w" present with an empty free list, three releases. -/
theorem idle_list_bound_witness :
    (freeListD (ensureKey (PoolState.init 2) "w") "w").length ≤
      (ensureKey (PoolState.init 2) "w").maxConnections / 2 ∧
    (freeListD (releaseSeq (ensureKey (PoolState.init 2) "w") "w"
        [mkToolset 5 "u", mkToolset 6 "u", mkToolset 7 "u"] false) "w").length ≤
      (ensureKey (PoolState.init 2) "w").maxConnections / 2 :=
  ⟨by decide,
   (idle_list_bound (ensureKey (PoolState.init 2) "w") "w"
      [mkToolset 5 "u", mkToolset 6 "u", mkToolset 7 "u"] false (by decide)).1⟩

theorem get_toolset_pop_last (s : PoolState) (name url : String) (ok : Bool)
    (l : List Toolset) (t : Toolset) (h : lookup s.pools name = some (l ++ [t])) :
    (get_toolset s name url ok).1 = Except.ok t ∧
    (get_toolset s name url ok).2.1.connectionCount = s.connectionCount ∧
    (get_toolset s name url ok).2.2 =
      [Event.lockAcquire, Event.reused t.id, Event.lockRelease] := by
  have he : ensureKey s name = s := ensureKey_eq_self s name (by simp [h])
  have hf : freeListD s name = l ++ [t] := by simp [freeListD, h]
  simp only [get_toolset, he, hf, List.getLast?_concat]
  simp

/-- C4 counterexample: with `max_connections = 1` the idle bound
`1 // 2 = 0` makes every release close its handle, so releasing the
just-acquired handle and immediately re-acquiring creates a brand-new
handle (a `created` event, different identity) and changes the tracked
count from 1 to 0 — refuting release-then-acquire identity as an
unconditional law. -/
theorem reuse_before_create_cex :
    (get_toolset (PoolState.init 1) "w" "u" true).1 = Except.ok (mkToolset 0 "u") ∧
    countD (get_toolset (PoolState.init 1) "w" "u" true).2.1 "w" = 1 ∧
    countD (return_toolset (get_toolset (PoolState.init 1) "w" "u" true).2.1 "w"
      (mkToolset 0 "u") false).1 "w" = 0 ∧
    (get_toolset (return_toolset (get_toolset (PoolState.init 1) "w" "u" true).2.1 "w"
        (mkToolset 0 "u") false).1 "w" "u" true).1 = Except.ok (mkToolset 1 "u") ∧
    mkToolset 1 "u" ≠ mkToolset 0 "u" ∧
    Event.created 1 ∈ (get_toolset (return_toolset
        (get_toolset (PoolState.init 1) "w" "u" true).2.1 "w"
        (mkToolset 0 "u") false).1 "w" "u" true).2.2 := by
  decide

/-- C4 amended: provided the key is known and its free list is below the
idle bound `max_connections // 2` when the handle is released, the
immediately following acquire returns the identical handle, no handle is
created, and the counts dict is unchanged; in general an acquire pops
the most recently appended (last) element of the free list — LIFO. -/
theorem reuse_lifo (s : PoolState) (name url : String) (ts : Toolset) (loop : Bool)
    (ok : Bool) (pool : List Toolset) (hpool : lookup s.pools name = some pool)
    (hlt : pool.length < s.maxConnections / 2) :
    (get_toolset (return_toolset s name ts loop).1 name url ok).1 = Except.ok ts ∧
    (get_toolset (return_toolset s name ts loop).1 name url ok).2.1.connectionCount =
      s.connectionCount ∧
    (∀ i, Event.created i ∉ (get_toolset (return_toolset s name ts loop).1 name url ok).2.2 ∧
      Event.tempCreated i ∉ (get_toolset (return_toolset s name ts loop).1 name url ok).2.2) ∧
    (∀ l t, lookup s.pools name = some (l ++ [t]) →
      (get_toolset s name url ok).1 = Except.ok t) := by
  have hs2 : (return_toolset s name ts loop).1 =
      { s with pools := setKey s.pools name (pool ++ [ts]) } := by
    simp only [return_toolset, hpool, hlt, if_true]
  have hp := get_toolset_pop_last { s with pools := setKey s.pools name (pool ++ [ts]) }
    name url ok pool ts (lookup_setKey_self s.pools name (pool ++ [ts]))
  rw [hs2]
  refine ⟨hp.1, hp.2.1, ?_, ?_⟩
  · intro i
    rw [hp.2.2]
    simp
  · intro l t hl
    exact (get_toolset_pop_last s name url ok l t hl).1

/-- Closed instance of `reuse_lifo`: `max_connections = 4` (idle bound
2), key "w" present with an empty free list. -/
theorem reuse_lifo_witness :
    lookup (ensureKey (PoolState.init 4) "w").pools "w" = some [] ∧
    List.length ([] : List Toolset) < (ensureKey (PoolState.init 4) "w").maxConnections / 2 ∧
    (get_toolset (return_toolset (ensureKey (PoolState.init 4) "w") "w" (mkToolset 9 "u")
        false).1 "w" "u" true).1 = Except.ok (mkToolset 9 "u") :=
  ⟨by decide, by decide,
   (reuse_lifo (ensureKey (PoolState.init 4) "w") "w" "u" (mkToolset 9 "u") false true []
      (by decide) (by decide)).1⟩

/-- C2: under the factory lock, a cache entry strictly younger than the
TTL is returned itself with cache and pool completely untouched; at or
beyond the TTL the stale entry is popped, its `cleanup` attempted when
it has one, and the result of exactly one pool acquire is returned and
stored with the current timestamp (on acquire failure the stale entry
stays removed and the error propagates). -/
theorem ttl_cache (c : CacheState) (p : PoolState) (name url : String) (now : Int)
    (createOk : Bool) (cached : Toolset)
    (hc : lookup c.toolsetsCache name = some cached) :
    (now - (lookup c.creationTimestamps name).getD 0 < c.cacheTtl →
      get_or_create_toolset c p name url now createOk =
        (Except.ok cached, c, p, [Event.cacheHit name])) ∧
    (c.cacheTtl ≤ now - (lookup c.creationTimestamps name).getD 0 →
      (get_or_create_toolset c p name url now createOk).2.2.1 =
        (get_toolset p name url createOk).2.1 ∧
      (cached.hasCleanup = true →
        Event.dispose cached.id ∈ (get_or_create_toolset c p name url now createOk).2.2.2) ∧
      (∀ t, (get_toolset p name url createOk).1 = Except.ok t →
        (get_or_create_toolset c p name url now createOk).1 = Except.ok t ∧
        lookup (get_or_create_toolset c p name url now createOk).2.1.toolsetsCache name =
          some t ∧
        lookup (get_or_create_toolset c p name url now createOk).2.1.creationTimestamps
          name = some now) ∧
      (∀ e, (get_toolset p name url createOk).1 = Except.error e →
        (get_or_create_toolset c p name url now createOk).1 = Except.error e ∧
        (get_or_create_toolset c p name url now createOk).2.1.toolsetsCache =
          removeKey c.toolsetsCache name)) := by
  constructor
  · intro hfresh
    simp only [get_or_create_toolset, hc, hfresh, if_true]
  · intro hstale
    have hnlt : ¬ now - (lookup c.creationTimestamps name).getD 0 < c.cacheTtl :=
      not_lt.mpr hstale
    simp only [get_or_create_toolset, hc, hnlt, if_false]
    refine ⟨?_, ?_, ?_, ?_⟩
    · simp only [cacheStore]
      cases hr : (get_toolset p name url createOk).1 <;> simp [hr]
    · intro hcl
      simp only [cacheStore, hcl, if_true]
      cases hr : (get_toolset p name url createOk).1 <;> simp [hr]
    · intro t ht
      simp only [cacheStore, ht]
      simp [lookup_setKey_self]
    · intro e he
      simp only [cacheStore, he]
      simp

/-- Closed instance of `ttl_cache`: an entry created at time 0 with TTL
300 is a pure cache hit at time 299. -/
theorem ttl_cache_witness :
    lookup sampleCache.toolsetsCache "w" = some (mkToolset 3 "u") ∧
    299 - (lookup sampleCache.creationTimestamps "w").getD 0 < sampleCache.cacheTtl ∧
    get_or_create_toolset sampleCache (PoolState.init 10) "w" "u" 299 true =
      (Except.ok (mkToolset 3 "u"), sampleCache, PoolState.init 10,
       [Event.cacheHit "w"]) :=
  ⟨by decide, by decide,
   (ttl_cache sampleCache (PoolState.init 10) "w" "u" 299 true (mkToolset 3 "u")
      (by decide)).1 (by decide)⟩

theorem foldl_setKey_zero_keeps (ps : List (String × List Toolset))
    (m : List (String × Int)) (k : String) (h : lookup m k = some 0) :
    lookup (ps.foldl (fun m2 kv => setKey m2 kv.1 0) m) k = some 0 := by
  induction ps generalizing m with
  | nil => exact h
  | cons kv rest ih =>
      apply ih
      by_cases hk : kv.1 = k
      · subst hk
        exact lookup_setKey_self _ _ _
      · rw [lookup_setKey_ne _ _ _ _ hk]
        exact h

theorem foldl_setKey_zero_mem (ps : List (String × List Toolset))
    (m : List (String × Int)) (k : String) (h : (lookup ps k).isSome) :
    lookup (ps.foldl (fun m2 kv => setKey m2 kv.1 0) m) k = some 0 := by
  induction ps generalizing m with
  | nil => simp [lookup] at h
  | cons kv rest ih =>
      by_cases hk : kv.1 = k
      · subst hk
        exact foldl_setKey_zero_keeps rest _ kv.1 (lookup_setKey_self _ _ _)
      · apply ih
        cases kv with
        | mk k0 v0 =>
            simp only at hk
            simpa [lookup, hk] using h

theorem foldl_setKey_zero_lookup (ps : List (String × List Toolset))
    (m : List (String × Int)) (k : String) (v : Int)
    (h : lookup (ps.foldl (fun m2 kv => setKey m2 kv.1 0) m) k = some v) :
    lookup m k = some v ∨ v = 0 := by
  induction ps generalizing m with
  | nil => exact Or.inl h
  | cons kv rest ih =>
      rcases ih (setKey m kv.1 0) h with h2 | h2
      · by_cases hk : kv.1 = k
        · subst hk
          rw [lookup_setKey_self] at h2
          exact Or.inr (Option.some.inj h2).symm
        · rw [lookup_setKey_ne _ _ _ _ hk] at h2
          exact Or.inl h2
      · exact Or.inr h2

theorem cleanup_all_counts_zero (s : PoolState) (loop : Bool) (h : countsCovered s) :
    ∀ k v, lookup (cleanup_all s loop).1.connectionCount k = some v → v = 0 := by
  intro k v hv
  have hv2 : lookup (s.pools.foldl (fun m2 kv => setKey m2 kv.1 0) s.connectionCount)
      k = some v := hv
  rcases foldl_setKey_zero_lookup s.pools s.connectionCount k v hv2 with h2 | h2
  · rcases h k v h2 with h3 | h3
    · have h4 := foldl_setKey_zero_mem s.pools s.connectionCount k h3
      rw [hv2] at h4
      exact Option.some.inj h4
    · exact h3
  · exact h2

theorem return_toolset_countsCovered (s : PoolState) (name : String) (ts : Toolset)
    (loop : Bool) (h : countsCovered s) :
    countsCovered (return_toolset s name ts loop).1 := by
  unfold return_toolset
  split
  · exact h
  · rename_i pool hpool
    split
    · intro k v hk
      rcases h k v hk with h2 | h2
      · exact Or.inl (lookup_setKey_isSome _ _ _ _ h2)
      · exact Or.inr h2
    · intro k v hk
      by_cases hkn : name = k
      · subst hkn
        exact Or.inl (by simp [hpool])
      · rw [lookup_setKey_ne _ _ _ _ hkn] at hk
        exact h k v hk

theorem cleanup_fold_fst (entries : List (String × Toolset)) (p : PoolState)
    (evs : List Event) (loop : Bool) :
    (entries.foldl
      (fun (acc : PoolState × List Event) kv =>
        let r := return_toolset acc.1 kv.1 kv.2 loop
        (r.1, acc.2 ++ r.2)) (p, evs)).1 =
      entries.foldl (fun st kv => (return_toolset st kv.1 kv.2 loop).1) p := by
  induction entries generalizing p evs with
  | nil => rfl
  | cons kv rest ih => exact ih _ _

theorem cleanup_fold_countsCovered (entries : List (String × Toolset)) (p : PoolState)
    (loop : Bool) (h : countsCovered p) :
    countsCovered
      (entries.foldl (fun st kv => (return_toolset st kv.1 kv.2 loop).1) p) := by
  induction entries generalizing p with
  | nil => exact h
  | cons kv rest ih =>
      exact ih _ (return_toolset_countsCovered p kv.1 kv.2 loop h)

/-- C5: after `cleanup_toolsets` both cache dicts are empty, the pool's
free-list dict is empty (so every free list is empty) and every
remaining tracked count is 0 — whatever the handles' disposal behavior,
since disposal outcomes never enter the bookkeeping; and a second
`cleanup_all` on an already-cleaned pool changes nothing. -/
theorem teardown_completeness (c : CacheState) (p : PoolState) (loop : Bool)
    (h : countsCovered p) :
    (cleanup_toolsets c p loop).1.toolsetsCache = [] ∧
    (cleanup_toolsets c p loop).1.creationTimestamps = [] ∧
    (cleanup_toolsets c p loop).2.1.pools = [] ∧
    (∀ k, freeListD (cleanup_toolsets c p loop).2.1 k = []) ∧
    (∀ k v, lookup (cleanup_toolsets c p loop).2.1.connectionCount k = some v → v = 0) ∧
    (∀ s2 : PoolState, (cleanup_all (cleanup_all s2 loop).1 loop).1 =
      (cleanup_all s2 loop).1) := by
  refine ⟨rfl, rfl, rfl, ?_, ?_, ?_⟩
  · intro k
    simp [cleanup_toolsets, cleanup_all, freeListD, lookup]
  · have hmid : countsCovered
        (c.toolsetsCache.foldl (fun st kv => (return_toolset st kv.1 kv.2 loop).1) p) :=
      cleanup_fold_countsCovered c.toolsetsCache p loop h
    intro k v hv
    refine cleanup_all_counts_zero _ loop hmid k v ?_
    have hfst := cleanup_fold_fst c.toolsetsCache p [] loop
    simpa [cleanup_toolsets, hfst] using hv
  · intro s2
    rfl

/-- Closed instance of `teardown_completeness`: a cache holding one
handle whose disposal raises, over a pool with one tracked connection. -/
theorem teardown_completeness_witness :
    countsCovered samplePool ∧
    (∀ k v, lookup (cleanup_toolsets sampleCacheBad samplePool
      false).2.1.connectionCount k = some v → v = 0) := by
  have hcov : countsCovered samplePool := by
    intro k v hv
    by_cases hk : "w" = k
    · subst hk
      exact Or.inl (by decide)
    · simp [samplePool, lookup, hk] at hv
  exact ⟨hcov,
    (teardown_completeness sampleCacheBad samplePool false hcov).2.2.2.2.1⟩

/-- C6: a handle whose invoked disposal call raises (`close_toolset_raw`
reports a raise) never destabilizes the callers: `_close_toolset`
converts the raise into a warning, `return_toolset` at the idle bound
still performs its bookkeeping (count decremented) and logs the warning,
`cleanup_all` still empties the `pools` dict and logs the warning for
any such handle sitting in a free list, and `cleanup_toolsets` still
clears both cache dicts.  All four operations are total functions of the
embedding: the only raise, `close_toolset_raw`, is caught in
`close_toolset`. -/
theorem disposal_never_propagates (ts : Toolset) (loop : Bool) (s : PoolState)
    (name : String) (pool : List Toolset)
    (hraw : (close_toolset_raw ts loop).2 = true)
    (hpool : lookup s.pools name = some pool)
    (hfull : s.maxConnections / 2 ≤ pool.length) :
    Event.warnDisposal ∈ close_toolset ts loop ∧
    (return_toolset s name ts loop).1.connectionCount =
      setKey s.connectionCount name (countD s name - 1) ∧
    Event.warnDisposal ∈ (return_toolset s name ts loop).2 ∧
    (∀ s2 : PoolState, ∀ l, (name, l) ∈ s2.pools → ts ∈ l →
      (cleanup_all s2 loop).1.pools = [] ∧
      Event.warnDisposal ∈ (cleanup_all s2 loop).2) ∧
    (∀ c : CacheState, (cleanup_toolsets c s loop).1.toolsetsCache = [] ∧
      (cleanup_toolsets c s loop).1.creationTimestamps = []) := by
  have hwarn : Event.warnDisposal ∈ close_toolset ts loop := by
    simp [close_toolset, hraw]
  have hnlt : ¬ pool.length < s.maxConnections / 2 := not_lt.mpr hfull
  refine ⟨hwarn, ?_, ?_, ?_, ?_⟩
  · simp only [return_toolset, hpool, hnlt, if_false]
  · simp only [return_toolset, hpool, hnlt, if_false]
    simp only [List.mem_append, List.mem_cons]
    exact Or.inl (Or.inr hwarn)
  · intro s2 l hmem hts
    refine ⟨rfl, ?_⟩
    simp only [cleanup_all, List.mem_append, List.mem_cons]
    refine Or.inl (Or.inr ?_)
    rw [List.mem_flatten]
    refine ⟨(l.map (fun t => close_toolset t loop)).flatten, ?_, ?_⟩
    · exact List.mem_map_of_mem _ hmem
    · rw [List.mem_flatten]
      exact ⟨close_toolset ts loop, List.mem_map_of_mem _ hts, hwarn⟩
  · intro c
    exact ⟨rfl, rfl⟩

/-- Closed instance of `disposal_never_propagates`: `badToolset`, whose
`cleanup` always raises, released at the idle bound of `samplePool`
extended with a full free list. -/
theorem disposal_never_propagates_witness :
    (close_toolset_raw badToolset false).2 = true ∧
    Event.warnDisposal ∈ close_toolset badToolset false ∧
    Event.warnDisposal ∈
      (return_toolset (PoolState.mk 2 [("w", [mkToolset 1 "u"])] [("w", 2)] 2)
        "w" badToolset false).2 :=
  ⟨by decide,
   (disposal_never_propagates badToolset false
      (PoolState.mk 2 [("w", [mkToolset 1 "u"])] [("w", 2)] 2) "w" [mkToolset 1 "u"]
      (by decide) (by decide) (by decide)).1,
   (disposal_never_propagates badToolset false
      (PoolState.mk 2 [("w", [mkToolset 1 "u"])] [("w", 2)] 2) "w" [mkToolset 1 "u"]
      (by decide) (by decide) (by decide)).2.2.1⟩

theorem get_toolset_createError (s : PoolState) (name url : String)
    (hempty : freeListD (ensureKey s name) name = []) :
    (get_toolset s name url false).1 = Except.error CreationError.creationFailed ∧
    (get_toolset s name url false).2.1.connectionCount =
      (ensureKey s name).connectionCount ∧
    (∀ i, Event.created i ∉ (get_toolset s name url false).2.2 ∧
      Event.tempCreated i ∉ (get_toolset s name url false).2.2) := by
  simp only [get_toolset, hempty, List.getLast?_nil]
  split <;> simp

/-- C7: when handle construction fails and no idle handle is available,
`get_toolset` surfaces the creation error unchanged with the counts dict
exactly as the key-initialization left it (no increment, no retry — no
`created`/`tempCreated` event at all), and `_get_or_create_toolset` on a
cache miss propagates the same error with the cache left untouched. -/
theorem creation_error_propagates (s : PoolState) (name url : String)
    (hempty : freeListD (ensureKey s name) name = []) :
    (get_toolset s name url false).1 = Except.error CreationError.creationFailed ∧
    (get_toolset s name url false).2.1.connectionCount =
      (ensureKey s name).connectionCount ∧
    countD (get_toolset s name url false).2.1 name = countD (ensureKey s name) name ∧
    (∀ i, Event.created i ∉ (get_toolset s name url false).2.2 ∧
      Event.tempCreated i ∉ (get_toolset s name url false).2.2) ∧
    (∀ (c : CacheState) (p : PoolState) (now : Int),
      lookup c.toolsetsCache name = none → freeListD (ensureKey p name) name = [] →
        (get_or_create_toolset c p name url now false).1 =
          Except.error CreationError.creationFailed ∧
        (get_or_create_toolset c p name url now false).2.1 = c) := by
  have h1 := get_toolset_createError s name url hempty
  refine ⟨h1.1, h1.2.1, by rw [countD, h1.2.1, countD], h1.2.2, ?_⟩
  intro c p now hnc hpe
  have h2 := get_toolset_createError p name url hpe
  simp only [get_or_create_toolset, hnc, cacheStore, h2.1]
  simp

/-- Closed instance of `creation_error_propagates`: a failing
construction on the fresh key "w" of an empty pool. -/
theorem creation_error_propagates_witness :
    freeListD (ensureKey (PoolState.init 3) "w") "w" = [] ∧
    (get_toolset (PoolState.init 3) "w" "u" false).1 =
      Except.error CreationError.creationFailed ∧
    countD (get_toolset (PoolState.init 3) "w" "u" false).2.1 "w" =
      countD (ensureKey (PoolState.init 3) "w") "w" :=
  ⟨by decide,
   (creation_error_propagates (PoolState.init 3) "w" "u" (by decide)).1,
   (creation_error_propagates (PoolState.init 3) "w" "u" (by decide)).2.2.1⟩

theorem close_toolset_no_lockAcquire (ts : Toolset) (loop : Bool) :
    Event.lockAcquire ∉ close_toolset ts loop := by
  rcases ts with ⟨i, u, hc, cc, hcl, rd⟩
  cases loop <;> cases hc <;> cases cc <;> cases hcl <;> cases rd <;>
    simp [close_toolset, close_toolset_raw]

theorem close_toolset_no_lockRelease (ts : Toolset) (loop : Bool) :
    Event.lockRelease ∉ close_toolset ts loop := by
  rcases ts with ⟨i, u, hc, cc, hcl, rd⟩
  cases loop <;> cases hc <;> cases cc <;> cases hcl <;> cases rd <;>
    simp [close_toolset, close_toolset_raw]

theorem close_toolset_nolock (ts : Toolset) (loop : Bool) :
    ∀ e ∈ close_toolset ts loop, isLockEvent e = false := by
  intro e he
  cases e <;>
    first
      | rfl
      | exact absurd he (close_toolset_no_lockAcquire ts loop)
      | exact absurd he (close_toolset_no_lockRelease ts loop)

theorem allDisposes_append_nolock (mid tail : List Event) (d : Nat) (hd : 0 < d)
    (hm : ∀ e ∈ mid, isLockEvent e = false) :
    allDisposesUnderLock (mid ++ tail) d = allDisposesUnderLock tail d := by
  induction mid with
  | nil => rfl
  | cons e rest ih =>
      have he : isLockEvent e = false := hm e (by simp)
      have hr : ∀ e2 ∈ rest, isLockEvent e2 = false :=
        fun e2 h2 => hm e2 (by simp [h2])
      cases e <;>
        first
          | exact absurd he (by decide)
          | (simp only [List.cons_append, allDisposesUnderLock, decide_eq_true hd,
              Bool.true_and]
             exact ih hr)

theorem cleanup_all_events_nolock (s : PoolState) (loop : Bool) :
    ∀ e ∈ (s.pools.map
      (fun kv => (kv.2.map (fun t => close_toolset t loop)).flatten)).flatten,
      isLockEvent e = false := by
  intro e he
  rw [List.mem_flatten] at he
  rcases he with ⟨l, hl, hel⟩
  rw [List.mem_map] at hl
  rcases hl with ⟨kv, _, rfl⟩
  rw [List.mem_flatten] at hel
  rcases hel with ⟨l2, hl2, hel2⟩
  rw [List.mem_map] at hl2
  rcases hl2 with ⟨t, _, rfl⟩
  exact close_toolset_nolock t loop e hel2

/-- C8 counterexample: in the reachable state with `max_connections = 1`
where "w" has one live checked-out connection, `return_toolset` invokes
the disposal while holding the pool lock; likewise `cleanup_all` on a
pool with an idle handle disposes it inside the lock region — refuting
the claim that disposal happens outside the lock. -/
theorem lock_across_disposal_cex :
    someDisposeUnderLock
      (return_toolset (PoolState.mk 1 [("w", [])] [("w", 1)] 1) "w"
        (mkToolset 0 "u") false).2 0 = true ∧
    someDisposeUnderLock
      (cleanup_all (PoolState.mk 2 [("w", [mkToolset 0 "u"])] [("w", 1)] 1) false).2
      0 = true := by
  decide

/-- C8 amended: the pool lock IS held across the disposal call — in both
`return_toolset` and `cleanup_all` the handle is removed from tracked
state and then `_close_toolset` runs inside the `with self.lock` region,
so every disposal attempt in their traces occurs at positive lock
depth.  Only the suspending async close is deferred to the event loop as
a fire-and-forget task rather than awaited. -/
theorem disposal_inside_lock (s : PoolState) (name : String) (ts : Toolset)
    (loop : Bool) :
    allDisposesUnderLock (return_toolset s name ts loop).2 0 = true ∧
    allDisposesUnderLock (cleanup_all s loop).2 0 = true := by
  constructor
  · unfold return_toolset
    split
    · rfl
    · split
      · rfl
      · show allDisposesUnderLock
          ([Event.lockAcquire] ++ close_toolset ts loop ++ [Event.lockRelease]) 0 = true
        rw [List.append_assoc]
        show allDisposesUnderLock (close_toolset ts loop ++ [Event.lockRelease]) 1 = true
        rw [allDisposes_append_nolock _ _ 1 Nat.one_pos (close_toolset_nolock ts loop)]
        rfl
  · show allDisposesUnderLock ([Event.lockAcquire] ++ _ ++ [Event.lockRelease]) 0 = true
    rw [List.append_assoc]
    show allDisposesUnderLock (_ ++ [Event.lockRelease]) 1 = true
    rw [allDisposes_append_nolock _ _ 1 Nat.one_pos (cleanup_all_events_nolock s loop)]
    rfl

/-- C9: `return_toolset` cannot tell tracked handles from unmanaged
temporaries.  With `max_connections = 1`: the first acquire creates
tracked handle 0 (count 1), the second returns untracked temporary
handle 1 (count still 1); releasing both (idle bound `1 // 2 = 0`, so
each release closes and decrements) drives `connection_count["w"]` to
-1, so `connection_count >= 0` is not an invariant of the pool. -/
theorem count_can_go_negative :
    (get_toolset (PoolState.init 1) "w" "u" true).1 = Except.ok (mkToolset 0 "u") ∧
    countD (acquireSeq (PoolState.init 1) "w" "u" [true]) "w" = 1 ∧
    (get_toolset (acquireSeq (PoolState.init 1) "w" "u" [true]) "w" "u" true).1 =
      Except.ok (mkToolset 1 "u") ∧
    Event.tempCreated 1 ∈
      (get_toolset (acquireSeq (PoolState.init 1) "w" "u" [true]) "w" "u" true).2.2 ∧
    countD (acquireSeq (PoolState.init 1) "w" "u" [true, true]) "w" = 1 ∧
    countD (releaseSeq (acquireSeq (PoolState.init 1) "w" "u" [true, true]) "w"
      [mkToolset 0 "u", mkToolset 1 "u"] false) "w" = -1 := by
  decide

/-- C10: releasing a handle under a key the `pools` dict does not contain
— in particular any key at all after `cleanup_all` has cleared the dict —
returns the pool state unchanged with an empty trace between the lock
events: the handle is neither appended to a free list nor closed and no
count changes; the handle is silently abandoned. -/
theorem release_unknown_key_noop (s : PoolState) (name : String) (ts : Toolset)
    (loop : Bool) (h : lookup s.pools name = none) :
    return_toolset s name ts loop = (s, [Event.lockAcquire, Event.lockRelease]) ∧
    (∀ (s2 : PoolState) (k : String) (t2 : Toolset),
      return_toolset (cleanup_all s2 loop).1 k t2 loop =
        ((cleanup_all s2 loop).1, [Event.lockAcquire, Event.lockRelease])) := by
  constructor
  · simp only [return_toolset, h]
  · intro s2 k t2
    rfl

/-- Closed instance of `release_unknown_key_noop`: releasing under the
key "nope" on a pool that has never seen it. -/
theorem release_unknown_key_noop_witness :
    lookup (PoolState.init 5).pools "nope" = none ∧
    return_toolset (PoolState.init 5) "nope" (mkToolset 0 "u") false =
      (PoolState.init 5, [Event.lockAcquire, Event.lockRelease]) :=
  ⟨by decide,
   (release_unknown_key_noop (PoolState.init 5) "nope" (mkToolset 0 "u") false
      (by decide)).1⟩

end TravelAgent
